import Mathlib

/-!
Verification of `src/utils/Archive.cpp` (SumatraPDF archive abstraction).

The development shallow-embeds the archive façade: `Archive::Open`,
`getFileIdByName`, `Archive::GetFileDataById`, `Archive::GetFileDataByName`,
`Archive::GetComment`, `Archive::OpenUnrarFallback`, and the unrar.dll
fallback routines `UnRarDll::ExtractFilenames` and `UnRarDll::GetFileByName`.

The external unarr decoder (`ar_*` functions) is out of scope for the
repository and is modelled abstractly: a decoder handle carries the flag
`ar_at_eof` reports right after opening, together with the list of entries
that successive `ar_parse_entry` calls deliver before returning false.
Whether that final false was end-of-data or a structural error is not
observable through the C interface; the model records it as the ghost field
`termIsError`, which the embedded code never reads (faithfully mirroring
the source, which cannot read it either).

Machine integers: `size_t` is modelled as `Nat` with the explicit bound
`SIZE_MAX = 2 ^ 64 - 1`; `(size_t)-1` is `SIZE_MAX`.  Fallible C calls
(seek, malloc, uncompress, the unrar DLL entry points) are modelled as
oracles in explicit environment records, so every embedded function is a
computable `def` on concrete data.
-/

/-- `SIZE_MAX` for the 64-bit `size_t` used by the source; `(size_t)-1`
    (the not-found sentinel and unarr's error return) is this same value. -/
def SIZE_MAX : Nat := 2 ^ 64 - 1

/-- `RAR_DLL_VERSION` from Archive.cpp (minimum accepted unrar.dll version). -/
def RAR_DLL_VERSION : Nat := 6

/-- `Archive::Format` (Archive.h): the four container formats. -/
inductive Format where
  | Zip
  | SevenZip
  | Tar
  | Rar
deriving DecidableEq, Repr

/-- One entry as the unarr decoder reports it during the parse loop:
    `ar_entry_get_name` (null is `none`), `ar_entry_get_size`,
    `ar_entry_get_offset`, `ar_entry_get_filetime`. -/
structure EntryData where
  name : Option (List Char)
  size : Nat
  pos : Int
  time : Int
deriving DecidableEq, Repr

/-- Abstract model of a non-null unarr decoder handle (`ar_archive*`):
    `atEof` is what `ar_at_eof` reports right after the opener returns;
    `entries` are the entries successive `ar_parse_entry` calls deliver
    before one returns false; `termIsError` is the unobservable cause of
    that final false (structural error rather than end-of-data) — the
    C interface exposes only the boolean, so no embedded function reads it. -/
structure ArHandle where
  atEof : Bool
  entries : List EntryData
  termIsError : Bool
deriving DecidableEq, Repr

/-- `Archive::FileInfo` (the fields Archive.cpp assigns in the parse loop).
    `name` is never null in the source (`""` when the decoder gave none),
    so it is a plain list here. -/
structure FileInfo where
  fileId : Nat
  fileSizeUncompressed : Nat
  filePos : Int
  fileTime : Int
  name : List Char
deriving DecidableEq, Repr

/-- The `Archive` object state the member functions read: the format tag,
    the decoder handle `ar_` (`none` = null pointer), and `fileInfos_`. -/
structure ArchiveSt where
  format : Format
  ar : Option ArHandle
  fileInfos : List FileInfo
deriving DecidableEq, Repr

/-- `Archive::OpenUnrarFallback` (Archive.cpp:483-490): under
    `ENABLE_UNRARDLL_FALLBACK` it constructs the `UnRarDll` engine and then
    returns false; without the define it returns false.  Both preprocessor
    branches return false, whatever the fallback engine's state. -/
def openUnrarFallback (fallbackInitializes : Bool) : Bool :=
  false

/-- The parse loop body of `Archive::Open` (Archive.cpp:58-74): one
    `FileInfo` per decoder entry, `fileId` counting up from the given seed,
    name defaulted to the empty string when the decoder supplied null. -/
def buildInfos : List EntryData → Nat → List FileInfo
  | [], _ => []
  | e :: es, fid =>
    { fileId := fid
      fileSizeUncompressed := e.size
      filePos := e.pos
      fileTime := e.time
      name := e.name.getD [] } :: buildInfos es (fid + 1)

/-- `Archive::Open` (Archive.cpp:45-76).  `dataOk` models `data != nullptr`;
    `opened` is the result of `opener_(data)` (`none` = null handle).
    Returns the bool the function returns together with the object state it
    leaves behind (`ar_` is assigned before the eof check, so it is non-null
    in the at-eof failure case). -/
def archiveOpen (fmt : Format) (fallbackInitializes : Bool) (dataOk : Bool)
    (opened : Option ArHandle) : Bool × ArchiveSt :=
  if dataOk = false then
    (false, ⟨fmt, none, []⟩)
  else
    match opened with
    | none =>
      (if fmt = Format.Rar then openUnrarFallback fallbackInitializes else false,
       ⟨fmt, none, []⟩)
    | some h =>
      if h.atEof then
        (if fmt = Format.Rar then openUnrarFallback fallbackInitializes else false,
         ⟨fmt, some h, []⟩)
      else
        (true, ⟨fmt, some h, buildInfos h.entries 0⟩)

/-- ASCII lower-casing of one character, as the case-insensitive compare
    `str::EqI` (a `_stricmp` analogue) folds case. -/
def charLower (c : Char) : Char :=
  if 'A' ≤ c ∧ c ≤ 'Z' then Char.ofNat (c.toNat + 32) else c

/-- `str::EqI`: character-by-character case-insensitive string equality. -/
def eqI : List Char → List Char → Bool
  | [], [] => true
  | a :: as, b :: bs => if charLower a = charLower b then eqI as bs else false
  | _, _ => false

/-- `getFileIdByName` (Archive.cpp:83-90): first case-insensitive match in
    table order wins; `(size_t)-1` when nothing matches. -/
def getFileIdByName : List FileInfo → List Char → Nat
  | [], _ => SIZE_MAX
  | fi :: rest, nm => if eqI fi.name nm then fi.fileId else getFileIdByName rest nm

/-- `Archive::GetFileId` (Archive.cpp:96-98). -/
def getFileId (st : ArchiveSt) (nm : List Char) : Nat :=
  getFileIdByName st.fileInfos nm

/-- Oracles for the decoder calls `Archive::GetFileDataById` makes:
    `ar_parse_entry_at` success per position, `malloc` success per request
    size, and `ar_entry_uncompress` (the bytes it writes on success; the
    unarr contract fills exactly the requested count). -/
structure ExtractEnv where
  seekOk : Int → Bool
  mallocOk : Nat → Bool
  uncompress : Int → Nat → Option (List Nat)

/-- `Archive::GetFileDataById` (Archive.cpp:112-145): null-handle and range
    guard, seek, the `size > SIZE_MAX - 3` overflow guard, `malloc(size+3)`,
    uncompress, then the three zero bytes at `size`, `size+1`, `size+2`,
    reporting `size` as the length. -/
def getFileDataById (st : ArchiveSt) (env : ExtractEnv) (fileId : Nat) :
    Option (List Nat × Nat) :=
  if st.ar.isNone ∨ st.fileInfos.length ≤ fileId then
    none
  else
    match st.fileInfos[fileId]? with
    | none => none
    | some fi =>
      if env.seekOk fi.filePos = false then none
      else if SIZE_MAX - 3 < fi.fileSizeUncompressed then none
      else if env.mallocOk (fi.fileSizeUncompressed + 3) = false then none
      else
        match env.uncompress fi.filePos fi.fileSizeUncompressed with
        | none => none
        | some bs => some (bs ++ [0, 0, 0], fi.fileSizeUncompressed)

/-- `Archive::GetFileDataByName` (Archive.cpp:107-110): the literal
    composition of `getFileIdByName` and `GetFileDataById`. -/
def getFileDataByName (st : ArchiveSt) (env : ExtractEnv) (nm : List Char) :
    Option (List Nat × Nat) :=
  getFileDataById st env (getFileIdByName st.fileInfos nm)

/-- Oracles for `ar_get_global_comment`: the length-query result, `malloc`
    success, the second call's return count and the bytes it writes. -/
structure CommentEnv where
  queryLen : Nat
  mallocOk : Bool
  readLen : Nat
  content : List Nat

/-- `Archive::GetComment` (Archive.cpp:147-163). -/
def getComment (st : ArchiveSt) (env : CommentEnv) : Option (List Nat × Nat) :=
  match st.ar with
  | none => none
  | some _ =>
    if env.queryLen = 0 ∨ env.queryLen = SIZE_MAX then none
    else if env.mallocOk = false then none
    else if env.readLen ≠ env.queryLen then none
    else some (env.content ++ [0], env.queryLen)

/-- `Archive::GetFileDataById` with the object state threaded through: the
    member function assigns no field of the `Archive` object (the decoder's
    internal cursor lives behind the opaque `ar_` handle), so the state out
    is the state in. -/
def getFileDataByIdS (st : ArchiveSt) (env : ExtractEnv) (fileId : Nat) :
    (Option (List Nat × Nat)) × ArchiveSt :=
  (getFileDataById st env fileId, st)

/-- `Archive::GetFileDataByName` with the object state threaded through. -/
def getFileDataByNameS (st : ArchiveSt) (env : ExtractEnv) (nm : List Char) :
    (Option (List Nat × Nat)) × ArchiveSt :=
  (getFileDataByName st env nm, st)

/-- `Archive::GetComment` with the object state threaded through. -/
def getCommentS (st : ArchiveSt) (env : CommentEnv) :
    (Option (List Nat × Nat)) × ArchiveSt :=
  (getComment st env, st)

/-- `Archive::GetFileId` with the object state threaded through. -/
def getFileIdS (st : ArchiveSt) (nm : List Char) : Nat × ArchiveSt :=
  (getFileId st nm, st)

/-- `str::TransChars(s, "\x5c", "/")` as used on `rarHeader.FileNameW`:
    every backslash path separator becomes a forward slash. -/
def transSep (s : List Char) : List Char :=
  s.map fun c => if c = '\\' then '/' else c

/-- Oracles for the unrar.dll calls `UnRarDll::ExtractFilenames` makes:
    `RARGetDllVersion` (`none` = the proc failed to load), whether `rarPath`
    is non-null, whether `RAROpenArchiveEx` yielded a handle with
    `OpenResult == 0`, and the `FileNameW` of each header that
    `RARReadHeaderEx` delivers before returning non-zero. -/
structure UnrarEnv where
  dllVersion : Option Nat
  rarPathOk : Bool
  openOk : Bool
  headers : List (List Char)

/-- The header loop of `UnRarDll::ExtractFilenames` (Archive.cpp:405-416):
    append the separator-normalized name when `filenames.size() == idx`,
    otherwise `CrashIf` it differs from the recorded name at `idx`.
    `none` models the fatal `CrashIf`. -/
def extractFilenamesLoop (filenames : List (List Char))
    (headers : List (List Char)) (idx : Nat) : Option (List (List Char)) :=
  match headers with
  | [] => some filenames
  | h :: rest =>
    let nm := transSep h
    if filenames.length = idx then
      extractFilenamesLoop (filenames ++ [nm]) rest (idx + 1)
    else if filenames[idx]? = some nm then
      extractFilenamesLoop filenames rest (idx + 1)
    else
      none

/-- `UnRarDll::ExtractFilenames` (Archive.cpp:392-420).  The result pairs
    the returned bool with the in/out `filenames` list; `none` models the
    fatal `CrashIf` on a name mismatch. -/
def extractFilenames (env : UnrarEnv) (filenames : List (List Char)) :
    Option (Bool × List (List Char)) :=
  match env.dllVersion with
  | none => some (false, filenames)
  | some v =>
    if v < RAR_DLL_VERSION then some (false, filenames)
    else if env.rarPathOk = false then some (false, filenames)
    else if env.openOk = false then some (false, filenames)
    else (extractFilenamesLoop filenames env.headers 0).map fun fns => (true, fns)

/-- The fields of `RARHeaderDataEx` that `UnRarDll::GetFileByName` reads:
    `FileNameW` (as read, before separator normalization), `UnpSize` and
    `UnpSizeHigh`. -/
structure RarHeader where
  name : List Char
  unpSize : Nat
  unpSizeHigh : Nat
deriving DecidableEq, Repr

/-- Oracles for the unrar.dll calls `UnRarDll::GetFileByName` makes: the
    DLL guards as in `UnrarEnv`, the readable headers in archive order,
    whether `RARProcessFile(RAR_TEST)` on the matched entry returns 0, the
    bytes the `unrarCallback` accumulates during that call, and whether the
    final `AppendChecked` of the padding succeeds. -/
structure RarExtractEnv where
  dllVersion : Option Nat
  rarPathOk : Bool
  openOk : Bool
  headers : List RarHeader
  testOk : Bool
  delivered : List Nat
  appendOk : Bool

/-- `UnRarDll::GetFileByName` (Archive.cpp:430-480): walk headers to the
    first case-insensitive match of the separator-normalized name; fail on a
    non-zero `UnpSizeHigh`, a failed `RARProcessFile(RAR_TEST)`, a delivered
    byte count differing from `UnpSize`, or a failed padding append; on
    success return the accumulated bytes plus the three appended zero bytes,
    reporting `data.size() - 2` as the length. -/
def getFileByName (env : RarExtractEnv) (filename : List Char) :
    Option (List Nat × Nat) :=
  match env.dllVersion with
  | none => none
  | some v =>
    if v < RAR_DLL_VERSION then none
    else if env.rarPathOk = false then none
    else if env.openOk = false then none
    else
      match env.headers.find? (fun h => eqI (transSep h.name) filename) with
      | none => none
      | some h =>
        if h.unpSizeHigh ≠ 0 then none
        else if env.testOk = false then none
        else if h.unpSize ≠ env.delivered.length then none
        else if env.appendOk = false then none
        else some (env.delivered ++ [0, 0, 0], (env.delivered.length + 3) - 2)

/-- A decoder handle delivering one entry named `a` of size 2 at offset 5,
    used to instantiate theorems at a concrete successfully-parsed archive. -/
def sampleHandle : ArHandle :=
  ⟨false, [⟨some ['a'], 2, 5, 0⟩], false⟩

/-- The archive state `Archive::Open` builds from `sampleHandle`. -/
def sampleSt : ArchiveSt :=
  ⟨Format.Zip, some sampleHandle, [⟨0, 2, 5, 0, ['a']⟩]⟩

/-- A benign extraction environment: seek and malloc succeed, uncompress
    delivers the two bytes `[7, 8]`. -/
def sampleEnv : ExtractEnv :=
  ⟨fun _ => true, fun _ => true, fun _ _ => some [7, 8]⟩

/-- A benign comment environment (3-byte comment, read succeeds). -/
def sampleCommentEnv : CommentEnv :=
  ⟨3, true, 3, [10, 11, 12]⟩

/-- A decoder handle whose entry stream is cut short by a structural error
    (`termIsError = true`) after one entry was parsed. -/
def errorCutHandle : ArHandle :=
  ⟨false, [⟨some ['a'], 5, 7, 0⟩], true⟩

/-- A decoder handle that is at end-of-data right after opening (zero
    entries available). -/
def eofHandle : ArHandle :=
  ⟨true, [], false⟩

/-- An archive state whose single entry declares `SIZE_MAX` uncompressed
    bytes (the padded allocation `SIZE_MAX + 3` would wrap `size_t`). -/
def hugeSt : ArchiveSt :=
  ⟨Format.Zip, some sampleHandle, [⟨0, SIZE_MAX, 5, 0, ['a']⟩]⟩

/-- The state of an archive after its decoder handle is gone (failed open
    or destroyed handle): `ar_` is null while a table may remain. -/
def closedSt : ArchiveSt :=
  ⟨Format.Zip, none, [⟨0, 2, 5, 0, ['a']⟩]⟩

/-- An unrar listing environment: DLL version 6, archive opens, two headers
    named `a\x5cb` and `c`. -/
def sampleUnrarEnv : UnrarEnv :=
  ⟨some 6, true, true, [['a', '\\', 'b'], ['c']]⟩

/-- An unrar extraction environment: one header named `a` declaring
    `UnpSize = 5`, `UnpSizeHigh = 0`; the test run succeeds and delivers the
    five bytes `[1, 2, 3, 4, 5]`; the padding append succeeds. -/
def sampleRarExtractEnv : RarExtractEnv :=
  ⟨some 6, true, true, [⟨['a'], 5, 0⟩], true, [1, 2, 3, 4, 5], true⟩

theorem buildInfos_length (es : List EntryData) (fid : Nat) :
    (buildInfos es fid).length = es.length := by
  induction es generalizing fid with
  | nil => rfl
  | cons e es ih => simp [buildInfos, ih]

theorem buildInfos_getElem (es : List EntryData) (fid k : Nat) :
    (buildInfos es fid)[k]? =
      (es[k]?).map fun e =>
        FileInfo.mk (fid + k) e.size e.pos e.time (e.name.getD []) := by
  induction es generalizing fid k with
  | nil => simp [buildInfos]
  | cons e es ih =>
    cases k with
    | zero => simp [buildInfos]
    | succ k =>
      simp only [buildInfos, List.getElem?_cons_succ, ih (fid + 1) k]
      cases es[k]? with
      | none => rfl
      | some e' => simp [Option.map]; omega

theorem eqI_eq_true_iff (a b : List Char) :
    eqI a b = true ↔ a.map charLower = b.map charLower := by
  induction a generalizing b with
  | nil => cases b <;> simp [eqI]
  | cons x xs ih =>
    cases b with
    | nil => simp [eqI]
    | cons y ys =>
      by_cases h : charLower x = charLower y
      · simp [eqI, h, ih]
      · simp [eqI, h]

theorem getFileIdByName_eq_find (infos : List FileInfo) (nm : List Char) :
    getFileIdByName infos nm =
      (match infos.find? (fun fi => eqI fi.name nm) with
       | some fi => fi.fileId
       | none => SIZE_MAX) := by
  induction infos with
  | nil => rfl
  | cons fi rest ih =>
    by_cases h : eqI fi.name nm = true
    · simp [getFileIdByName, h, List.find?_cons]
    · rw [Bool.not_eq_true] at h
      simp [getFileIdByName, h, List.find?_cons, ih]

theorem extractLoop_append (headers : List (List Char))
    (filenames : List (List Char)) (idx : Nat) (h : filenames.length = idx) :
    extractFilenamesLoop filenames headers idx =
      some (filenames ++ headers.map transSep) := by
  induction headers generalizing filenames idx with
  | nil => simp [extractFilenamesLoop]
  | cons hd rest ih =>
    rw [extractFilenamesLoop]
    simp only [h, if_true]
    rw [ih (filenames ++ [transSep hd]) (idx + 1) (by simp [h])]
    simp

theorem extractLoop_verify (headers : List (List Char))
    (filenames : List (List Char)) (idx : Nat) (hle : idx ≤ filenames.length)
    (hdrop : filenames.drop idx = headers.map transSep) :
    extractFilenamesLoop filenames headers idx = some filenames := by
  induction headers generalizing idx with
  | nil =>
    rfl
  | cons hd rest ih =>
    have hlt : idx < filenames.length := by
      by_contra hcon
      rw [List.drop_eq_nil_of_le (by omega)] at hdrop
      exact (List.cons_ne_nil _ _) hdrop.symm
    have hget : filenames[idx]? = some (transSep hd) := by
      have := List.getElem?_drop filenames idx 0
      rw [hdrop] at this
      simpa using this.symm
    rw [extractFilenamesLoop]
    simp only [Nat.ne_of_gt hlt, if_false, hget, if_true]
    have hdrop' : filenames.drop (idx + 1) = rest.map transSep := by
      have : (filenames.drop idx).tail = rest.map transSep := by
        rw [hdrop]; rfl
      rwa [List.tail_drop] at this
    exact ih (idx + 1) hlt hdrop'

theorem extractLoop_mismatch (headers : List (List Char))
    (filenames : List (List Char)) (idx i : Nat) (p hd : List Char)
    (hp : filenames[idx + i]? = some p) (hh : headers[i]? = some hd)
    (hne : p ≠ transSep hd) :
    extractFilenamesLoop filenames headers idx = none := by
  induction headers generalizing idx i with
  | nil => simp at hh
  | cons h0 rest ih =>
    cases i with
    | zero =>
      have hhd : h0 = hd := by simpa using hh
      have hp' : filenames[idx]? = some p := by simpa using hp
      have hlt : idx < filenames.length := (List.getElem?_eq_some.mp hp').1
      rw [extractFilenamesLoop]
      rw [if_neg (Nat.ne_of_gt hlt)]
      rw [if_neg (by rw [hp']; intro hcon; exact hne (by injection hcon with h1; rw [h1, hhd]))]
    | succ j =>
      have hh' : rest[j]? = some hd := by simpa using hh
      rw [extractFilenamesLoop]
      by_cases hfl : filenames.length = idx
      · have hnone : filenames[idx + (j + 1)]? = none :=
          List.getElem?_eq_none (by omega)
        rw [hnone] at hp
        cases hp
      · rw [if_neg hfl]
        by_cases hgot : filenames[idx]? = some (transSep h0)
        · rw [if_pos hgot]
          exact ih (idx + 1) j (by rw [show idx + 1 + j = idx + (j + 1) by omega]; exact hp) hh'
        · rw [if_neg hgot]

/-- C1: the claim states that for a Rar archive whose primary parse fails
    (null decoder handle or immediate end-of-data) with the fallback engine
    available and initializing, `Archive::Open` returns true.  It is false:
    `OpenUnrarFallback` constructs the engine and then returns false, so
    `Open` returns false in both primary-failure modes even with
    `fallbackInitializes = true`. -/
theorem c1_fallback_open_counterexample :
    (archiveOpen Format.Rar true true none).1 = false ∧
    (archiveOpen Format.Rar true true (some eofHandle)).1 = false := by
  constructor <;> rfl

/-- C1 (amended): for a Rar archive whose primary parse fails (the opener
    returns null, or the handle reports end-of-data right after opening),
    `Archive::Open` returns false whether or not the fallback engine is
    available and initializes: `OpenUnrarFallback` constructs the engine but
    unconditionally returns false, so fallback activation is
    indistinguishable from plain failure, not from success. -/
theorem c1_fallback_open_returns_false (fb dataOk : Bool)
    (opened : Option ArHandle)
    (hfail : opened = none ∨ ∃ a, opened = some a ∧ a.atEof = true) :
    (archiveOpen Format.Rar fb dataOk opened).1 = false ∧
    (∀ b, openUnrarFallback b = false) := by
  refine ⟨?_, fun _ => rfl⟩
  cases dataOk with
  | false => rfl
  | true =>
    rcases hfail with hnone | ⟨a, ha, heof⟩
    · rw [hnone]; rfl
    · rw [ha]
      simp [archiveOpen, heof, openUnrarFallback]

/-- C1 witness: the amended theorem applied to a concrete failed Rar open
    with the fallback engine initializing. -/
theorem c1_fallback_open_returns_false_witness :
    (archiveOpen Format.Rar true true (some eofHandle)).1 = false ∧
    (∀ b, openUnrarFallback b = false) :=
  c1_fallback_open_returns_false true true (some eofHandle)
    (Or.inr ⟨eofHandle, rfl, rfl⟩)

/-- C2: for an opened archive (non-null decoder) and an id in range whose
    seek and decompress succeed (with the decompressed byte count being the
    recorded `uncompressedSize`, per the unarr buffer contract, and the
    padded size not overflowing, so the decompress call is reached),
    `GetFileDataById` returns a non-null buffer, reports exactly the entry's
    recorded `uncompressedSize` as the length, and the three bytes at
    positions `length`, `length+1`, `length+2` are zero and uncounted. -/
theorem c2_extract_roundtrip (st : ArchiveSt) (env : ExtractEnv) (fileId : Nat)
    (a : ArHandle) (fi : FileInfo) (bs : List Nat)
    (har : st.ar = some a)
    (hfi : st.fileInfos[fileId]? = some fi)
    (hseek : env.seekOk fi.filePos = true)
    (hsz : fi.fileSizeUncompressed ≤ SIZE_MAX - 3)
    (hmal : env.mallocOk (fi.fileSizeUncompressed + 3) = true)
    (hun : env.uncompress fi.filePos fi.fileSizeUncompressed = some bs)
    (hbs : bs.length = fi.fileSizeUncompressed) :
    getFileDataById st env fileId = some (bs ++ [0, 0, 0], fi.fileSizeUncompressed) ∧
    (bs ++ [0, 0, 0]).length = fi.fileSizeUncompressed + 3 ∧
    (bs ++ [0, 0, 0])[fi.fileSizeUncompressed]? = some 0 ∧
    (bs ++ [0, 0, 0])[fi.fileSizeUncompressed + 1]? = some 0 ∧
    (bs ++ [0, 0, 0])[fi.fileSizeUncompressed + 2]? = some 0 := by
  have hlt : fileId < st.fileInfos.length := (List.getElem?_eq_some.mp hfi).1
  refine ⟨?_, ?_, ?_, ?_, ?_⟩
  · simp only [getFileDataById, hfi]
    rw [if_neg (not_or.mpr ⟨by rw [har]; simp, Nat.not_le.mpr hlt⟩)]
    rw [hseek, if_neg (by simp), if_neg (Nat.not_lt.mpr hsz), hmal,
      if_neg (by simp), hun]
  · simp [hbs]
  · rw [← hbs, List.getElem?_append_right (Nat.le_refl _)]
    simp
  · rw [← hbs, List.getElem?_append_right (by omega)]
    simp
  · rw [← hbs, List.getElem?_append_right (by omega)]
    simp [show bs.length + 2 - bs.length = 2 by omega]

/-- C2 witness: the theorem at the sample one-entry archive, seek and malloc
    succeeding and uncompress delivering `[7, 8]` for the 2-byte entry. -/
theorem c2_extract_roundtrip_witness :
    getFileDataById sampleSt sampleEnv 0 = some ([7, 8, 0, 0, 0], 2) ∧
    ([7, 8, 0, 0, 0] : List Nat).length = 2 + 3 ∧
    ([7, 8, 0, 0, 0] : List Nat)[2]? = some 0 ∧
    ([7, 8, 0, 0, 0] : List Nat)[3]? = some 0 ∧
    ([7, 8, 0, 0, 0] : List Nat)[4]? = some 0 :=
  c2_extract_roundtrip sampleSt sampleEnv 0 sampleHandle ⟨0, 2, 5, 0, ['a']⟩
    [7, 8] rfl rfl rfl (by decide) rfl rfl rfl

/-- C3: the claim states that parseAll is all-or-nothing — a structural
    error partway yields `ParseFailure` with no partial results.  It is
    false on the code: `ar_parse_entry`'s false return is indistinguishable
    from end-of-data, so with a structural error (ghost `termIsError = true`)
    after one parsed entry `Open` returns true and keeps that entry. -/
theorem c3_partial_parse_counterexample :
    errorCutHandle.termIsError = true ∧
    (archiveOpen Format.Zip false true (some errorCutHandle)).1 = true ∧
    (archiveOpen Format.Zip false true (some errorCutHandle)).2.fileInfos =
      [⟨0, 5, 7, 0, ['a']⟩] :=
  ⟨rfl, rfl, rfl⟩

/-- C3 (amended): `Archive::Open` cannot observe why `ar_parse_entry`
    returned false; whenever the opener returned a handle not at immediate
    end-of-data, `Open` returns true and the table holds exactly the entries
    parsed before the loop stopped — also when the stop was a structural
    error partway.  Parse failure (false) arises only from a null stream, a
    null handle, or end-of-data right after opening. -/
theorem c3_parse_keeps_prefix (fmt : Format) (fb : Bool) (h : ArHandle)
    (hne : h.atEof = false) :
    archiveOpen fmt fb true (some h) =
      (true, ⟨fmt, some h, buildInfos h.entries 0⟩) := by
  simp [archiveOpen, hne]

/-- C3 amended-theorem witness: the error-cut handle still opens with its
    one parsed entry retained. -/
theorem c3_parse_keeps_prefix_witness :
    archiveOpen Format.Zip false true (some errorCutHandle) =
      (true, ⟨Format.Zip, some errorCutHandle, [⟨0, 5, 7, 0, ['a']⟩]⟩) :=
  c3_parse_keeps_prefix Format.Zip false errorCutHandle rfl

/-- C5: `Archive::Open` treats the decoder's end-of-data report (the
    `ar_at_eof` probe right after opening, before any entry was parsed) as
    failure for a non-Rar format, leaving the table empty; when the handle
    is not at end-of-data and at least one entry is parsed before the stream
    ends, `Open` returns true. -/
theorem c5_eof_zero_vs_nonzero (fmt : Format) (fb : Bool) (h : ArHandle) :
    (h.atEof = true → fmt ≠ Format.Rar →
      archiveOpen fmt fb true (some h) = (false, ⟨fmt, some h, []⟩)) ∧
    (h.atEof = false → h.entries ≠ [] →
      (archiveOpen fmt fb true (some h)).1 = true) := by
  constructor
  · intro heof hfmt
    simp [archiveOpen, heof, hfmt]
  · intro hne _
    simp [archiveOpen, hne]

/-- C5 witness: end-of-data at open with zero entries fails for a Zip
    archive and leaves no entries; one parsed entry before end-of-data
    succeeds. -/
theorem c5_eof_zero_vs_nonzero_witness :
    archiveOpen Format.Zip false true (some eofHandle) =
      (false, ⟨Format.Zip, some eofHandle, []⟩) ∧
    (archiveOpen Format.Zip false true (some sampleHandle)).1 = true :=
  ⟨(c5_eof_zero_vs_nonzero Format.Zip false eofHandle).1 rfl (by decide),
   (c5_eof_zero_vs_nonzero Format.Zip false sampleHandle).2 rfl (by decide)⟩

/-- C6: every out-of-range id — `count` itself, anything larger, and the
    `(size_t)-1` sentinel a name-lookup miss produces — and every state with
    a null decoder handle make `GetFileDataById` return null, and a null
    handle makes `GetComment` return null; the embedded functions are total,
    so no table indexing or decoder dereference happens on these paths. -/
theorem c6_guard_paths (st : ArchiveSt) (env : ExtractEnv) (cenv : CommentEnv)
    (nm : List Char) (fileId : Nat) :
    (st.fileInfos.length ≤ fileId → getFileDataById st env fileId = none) ∧
    (st.ar = none → getFileDataById st env fileId = none) ∧
    getFileDataById st env st.fileInfos.length = none ∧
    (st.fileInfos.length ≤ SIZE_MAX → getFileDataById st env SIZE_MAX = none) ∧
    ((∀ fi ∈ st.fileInfos, eqI fi.name nm = false) →
      st.fileInfos.length ≤ SIZE_MAX → getFileDataByName st env nm = none) ∧
    (st.ar = none → getComment st cenv = none) := by
  refine ⟨?_, ?_, ?_, ?_, ?_, ?_⟩
  · intro hle
    rw [getFileDataById, if_pos (Or.inr hle)]
  · intro har
    rw [getFileDataById, if_pos (Or.inl (by rw [har]; rfl))]
  · rw [getFileDataById, if_pos (Or.inr (Nat.le_refl _))]
  · intro hle
    rw [getFileDataById, if_pos (Or.inr hle)]
  · intro hmiss hle
    have hid : getFileIdByName st.fileInfos nm = SIZE_MAX := by
      rw [getFileIdByName_eq_find]
      rw [List.find?_eq_none.mpr (fun fi hfi => by rw [hmiss fi hfi]; simp)]
    rw [getFileDataByName, hid, getFileDataById, if_pos (Or.inr hle)]
  · intro har
    rw [getComment, har]

/-- C6 witness: the guards at concrete states — the one-entry sample archive
    (ids 5, `count = 1`, the sentinel, a missing name) and a state whose
    decoder handle is null. -/
theorem c6_guard_paths_witness :
    getFileDataById sampleSt sampleEnv 5 = none ∧
    getFileDataById closedSt sampleEnv 0 = none ∧
    getFileDataById sampleSt sampleEnv 1 = none ∧
    getFileDataById sampleSt sampleEnv SIZE_MAX = none ∧
    getFileDataByName sampleSt sampleEnv ['z'] = none ∧
    getComment closedSt sampleCommentEnv = none :=
  ⟨(c6_guard_paths sampleSt sampleEnv sampleCommentEnv ['z'] 5).1 (by decide),
   (c6_guard_paths closedSt sampleEnv sampleCommentEnv ['z'] 0).2.1 rfl,
   (c6_guard_paths sampleSt sampleEnv sampleCommentEnv ['z'] 0).2.2.1,
   (c6_guard_paths sampleSt sampleEnv sampleCommentEnv ['z'] 0).2.2.2.1 (by decide),
   (c6_guard_paths sampleSt sampleEnv sampleCommentEnv ['z'] 0).2.2.2.2.1
     (by decide) (by decide),
   (c6_guard_paths closedSt sampleEnv sampleCommentEnv ['z'] 0).2.2.2.2.2 rfl⟩

/-- C7: `GetFileDataByName` is exactly `GetFileDataById` of `GetFileId` of
    the name; `GetFileId` compares case-insensitively (ASCII case folding on
    both sides), the first matching entry in table order wins, and the
    `(size_t)-1` sentinel is returned when no entry matches. -/
theorem c7_byname_composition (st : ArchiveSt) (env : ExtractEnv)
    (nm : List Char) :
    getFileDataByName st env nm = getFileDataById st env (getFileId st nm) ∧
    getFileId st nm =
      (match st.fileInfos.find? (fun fi => eqI fi.name nm) with
       | some fi => fi.fileId
       | none => SIZE_MAX) ∧
    (∀ a b : List Char, eqI a b = true ↔ a.map charLower = b.map charLower) :=
  ⟨rfl, getFileIdByName_eq_find st.fileInfos nm, eqI_eq_true_iff⟩

/-- C8: after every successful `Open`, the table has one record per parsed
    entry with `fileId` equal to its position (ids are exactly `0..count-1`
    in parse order), each record's name is the decoder's name or the empty
    string when the decoder supplied none (never null), and the subsequent
    operations — extraction by id and by name, the comment read, and the
    name lookup — leave `fileInfos_` unchanged (none of the member functions
    assigns an `Archive` field; the state is threaded explicitly). -/
theorem c8_table_invariant (fmt : Format) (fb : Bool) (h : ArHandle)
    (st : ArchiveSt) (hopen : archiveOpen fmt fb true (some h) = (true, st)) :
    st.fileInfos.length = h.entries.length ∧
    (∀ k, k < st.fileInfos.length →
      st.fileInfos[k]? = (h.entries[k]?).map fun e =>
        FileInfo.mk k e.size e.pos e.time (e.name.getD [])) ∧
    (∀ env fid, (getFileDataByIdS st env fid).2.fileInfos = st.fileInfos) ∧
    (∀ env nm, (getFileDataByNameS st env nm).2.fileInfos = st.fileInfos) ∧
    (∀ cenv, (getCommentS st cenv).2.fileInfos = st.fileInfos) ∧
    (∀ nm, (getFileIdS st nm).2.fileInfos = st.fileInfos) := by
  have hst : st = ⟨fmt, some h, buildInfos h.entries 0⟩ := by
    by_cases heof : h.atEof
    · rw [archiveOpen] at hopen
      simp [heof, openUnrarFallback, ite_self] at hopen
    · rw [archiveOpen] at hopen
      simp only [heof, Bool.false_eq_true, if_false, Bool.true_eq_false,
        Prod.mk.injEq] at hopen
      exact hopen.2.symm
  subst hst
  refine ⟨buildInfos_length h.entries 0, fun k _ => ?_, fun _ _ => rfl,
    fun _ _ => rfl, fun _ => rfl, fun _ => rfl⟩
  have := buildInfos_getElem h.entries 0 k
  simpa using this

/-- C8 witness: the invariant at the concrete one-entry archive built by a
    successful `Open` of the sample handle. -/
theorem c8_table_invariant_witness :
    sampleSt.fileInfos.length = sampleHandle.entries.length ∧
    (∀ k, k < sampleSt.fileInfos.length →
      sampleSt.fileInfos[k]? = (sampleHandle.entries[k]?).map fun e =>
        FileInfo.mk k e.size e.pos e.time (e.name.getD [])) ∧
    (∀ env fid,
      (getFileDataByIdS sampleSt env fid).2.fileInfos = sampleSt.fileInfos) ∧
    (∀ env nm,
      (getFileDataByNameS sampleSt env nm).2.fileInfos = sampleSt.fileInfos) ∧
    (∀ cenv, (getCommentS sampleSt cenv).2.fileInfos = sampleSt.fileInfos) ∧
    (∀ nm, (getFileIdS sampleSt nm).2.fileInfos = sampleSt.fileInfos) :=
  c8_table_invariant Format.Zip false sampleHandle sampleSt rfl

/-- C9: `UnRarDll::ExtractFilenames` on a fresh list records the names in
    header order with every backslash replaced by a forward slash; invoked
    again with the names already recorded it re-derives and verifies them,
    succeeding when they agree; a mismatch at any recorded position is the
    fatal `CrashIf` (modelled as `none`), not a recoverable false. -/
theorem c9_extract_filenames (env : UnrarEnv) (v : Nat)
    (prev : List (List Char))
    (hv : env.dllVersion = some v) (hge : RAR_DLL_VERSION ≤ v)
    (hpath : env.rarPathOk = true) (hopen : env.openOk = true) :
    extractFilenames env [] = some (true, env.headers.map transSep) ∧
    (prev = env.headers.map transSep →
      extractFilenames env prev = some (true, prev)) ∧
    (∀ (i : Nat) (p hd : List Char), prev[i]? = some p →
      env.headers[i]? = some hd →
      p ≠ transSep hd → extractFilenames env prev = none) := by
  have hguards : ∀ fns, extractFilenames env fns =
      (extractFilenamesLoop fns env.headers 0).map fun f => (true, f) := by
    intro fns
    simp [extractFilenames, hv, hpath, hopen, Nat.not_lt.mpr hge]
  refine ⟨?_, ?_, ?_⟩
  · rw [hguards, extractLoop_append env.headers [] 0 rfl]
    rfl
  · intro hprev
    rw [hguards, extractLoop_verify env.headers prev 0 (Nat.zero_le _)
      (by simpa using hprev)]
    rfl
  · intro i p hd hp hh hne
    rw [hguards, extractLoop_mismatch env.headers prev 0 i p hd
      (by simpa using hp) hh hne]
    rfl

/-- C9 witness: the theorem at the two-header sample environment — a fresh
    listing normalizes `a\x5cb` to `a/b`, re-listing over the recorded names
    succeeds, and re-listing over a differing recorded name is fatal. -/
theorem c9_extract_filenames_witness :
    extractFilenames sampleUnrarEnv [] =
      some (true, [['a', '/', 'b'], ['c']]) ∧
    extractFilenames sampleUnrarEnv [['a', '/', 'b'], ['c']] =
      some (true, [['a', '/', 'b'], ['c']]) ∧
    extractFilenames sampleUnrarEnv [['x']] = none :=
  ⟨(c9_extract_filenames sampleUnrarEnv 6 [] rfl (by decide) rfl rfl).1,
   (c9_extract_filenames sampleUnrarEnv 6 [['a', '/', 'b'], ['c']] rfl
      (by decide) rfl rfl).2.1 (by decide),
   (c9_extract_filenames sampleUnrarEnv 6 [['x']] rfl (by decide) rfl
      rfl).2.2 0 ['x'] ['a', '\\', 'b'] rfl rfl (by decide)⟩

/-- C10: an entry whose recorded `uncompressedSize` exceeds `SIZE_MAX - 3`
    makes `GetFileDataById` fail for every allocator and decompressor
    oracle: the overflow guard fires before `malloc`, so the padded
    allocation size `size + 3` never wraps `size_t`. -/
theorem c10_overflow_guard (st : ArchiveSt) (fileId : Nat) (fi : FileInfo)
    (hfi : st.fileInfos[fileId]? = some fi)
    (hbig : SIZE_MAX - 3 < fi.fileSizeUncompressed) :
    ∀ env : ExtractEnv, getFileDataById st env fileId = none := by
  intro env
  by_cases har : st.ar.isNone = true
  · rw [getFileDataById, if_pos (Or.inl har)]
  · have hlt : fileId < st.fileInfos.length := (List.getElem?_eq_some.mp hfi).1
    simp only [getFileDataById, hfi]
    rw [if_neg (not_or.mpr ⟨har, Nat.not_le.mpr hlt⟩)]
    cases hseek : env.seekOk fi.filePos with
    | false => simp [hseek]
    | true => simp [hseek, hbig]

/-- C10 witness: the guard at the archive whose single entry declares
    `SIZE_MAX` uncompressed bytes. -/
theorem c10_overflow_guard_witness :
    getFileDataById hugeSt sampleEnv 0 = none :=
  c10_overflow_guard hugeSt 0 ⟨0, SIZE_MAX, 5, 0, ['a']⟩ rfl (by decide)
    sampleEnv

/-- C4: the claim's failure clauses hold on the code (a non-zero
    `UnpSizeHigh` or a delivered-byte mismatch yields null, and three zero
    bytes are appended), but its reported-length clause does not: the source
    sets `*len = data.size() - 2` after appending three zero bytes, so the
    matched entry with `UnpSize = 5` reports length `6 = UnpSize + 1`, one
    more than the header-declared size — unlike the primary path, whose
    identically-commented padding is wholly excluded from the length. -/
theorem c4_fallback_length_bug :
    getFileByName sampleRarExtractEnv ['a'] =
      some ([1, 2, 3, 4, 5, 0, 0, 0], 6) := by
  decide
